import Mathlib

/-!
Shallow embedding of the Flask CRUD application in `src/app.py`
(model `User`, handlers `add_user`, `view_user`, `update_user`,
`delete_user`, `search_users`) and proofs about it.

Modelling conventions:
* The SQLite-backed store is a list of rows in insertion (rowid) order;
  `Query.first()` with no `order_by` returns the first row in that order,
  embedded as `List.find?`.
* `datetime.utcnow` and the auto-increment primary key are embedded as the
  `now` and `next_id` components of the application state; a freshly
  inserted row receives them.
* Python `int(...)` on an already-stripped string is embedded by
  `parsePyInt` (optional sign, decimal digits, single underscores allowed
  between digits; Unicode digits are not modelled).
* SQLAlchemy `ilike` compiles to SQL `LIKE` (case-insensitive): the pattern
  must match the whole string, `%` matches any sequence, `_` matches any
  single character, and other characters compare with ASCII case folding
  (SQLite's `LIKE` folds ASCII only, as does `Char.toLower` on ASCII input).
  No ESCAPE clause is used in the source, so none is modelled.
* `db.Column(db.String(120))` declares a length for the email column, but
  the configured SQLite backend does not enforce VARCHAR lengths, so the
  embedded store accepts strings of any length.  The `unique=True`
  constraint on email IS enforced by SQLite; reachable store states
  therefore have pairwise-distinct emails (and pairwise-distinct ids, the
  primary key), which the theorems take as the store invariant.
* Request handlers return a value of type `Outcome` (success payload,
  flash-message failure re-rendering the form, or a 404) together with the
  post-state of the store; all failing paths in the source return before
  any `db.session` mutation, so they carry the unchanged state.
-/

namespace FinalExam

/-- Embedded from `class User(db.Model)` in src/app.py: columns `id`
(integer primary key), `first_name`, `last_name`, `email` (unique),
`age` (integer), `city`, `created_at` (timestamp, embedded as `Nat`). -/
structure User where
  id : Nat
  first_name : String
  last_name : String
  email : String
  age : Int
  city : String
  created_at : Nat
deriving DecidableEq, Repr

/-- The application state: the `users` table in rowid order, the next
auto-increment primary key, and the current clock value used for
`created_at`. -/
structure AppState where
  users : List User
  next_id : Nat
  now : Nat
deriving DecidableEq, Repr

/-- The five form fields of the add/update forms, as submitted. -/
structure FormData where
  first_name : String
  last_name : String
  email : String
  age : String
  city : String
deriving DecidableEq, Repr

/-- The normalized values produced when validation passes: the strings are
the stripped inputs and the age is the parsed integer. -/
structure NormForm where
  first_name : String
  last_name : String
  email : String
  age : Int
  city : String
deriving DecidableEq, Repr

/-- Result of a request handler: a success payload, a flash-message error
(the form is re-rendered), or a 404 from `get_or_404`. -/
inductive Outcome (α : Type) where
  | notFound : Outcome α
  | failure (msg : String) : Outcome α
  | ok (val : α) : Outcome α
deriving DecidableEq, Repr

/-- Modelled from Python `str.strip()` with no argument: remove leading and
trailing whitespace (ASCII whitespace; Python also strips some Unicode
whitespace, which no claim exercises). -/
def pyStrip (s : String) : String :=
  ⟨((s.data.dropWhile Char.isWhitespace).reverse.dropWhile Char.isWhitespace).reverse⟩

/-- An ASCII decimal digit. -/
def isDig (c : Char) : Bool := '0' ≤ c && c ≤ '9'

/-- Numeric value of an ASCII decimal digit. -/
def digitVal (c : Char) : Nat := c.toNat - '0'.toNat

/-- Continuation of a digit run in Python `int(...)`: further digits, with a
single underscore permitted between two digits. -/
def moreDigits (acc : Nat) : List Char → Option Nat
  | [] => some acc
  | c :: rest =>
    if isDig c then moreDigits (acc * 10 + digitVal c) rest
    else if c = '_' then
      match rest with
      | [] => none
      | d :: rest' => if isDig d then moreDigits (acc * 10 + digitVal d) rest' else none
    else none

/-- A digit run must start with a digit. -/
def startDigits : List Char → Option Nat
  | [] => none
  | c :: rest => if isDig c then moreDigits (digitVal c) rest else none

/-- Modelled from CPython `int(str)` with base 10 on an already-stripped
string: an optional `+`/`-` sign followed by decimal digits in which single
underscores may separate digits; anything else raises `ValueError`,
embedded as `none`. -/
def parsePyInt (s : String) : Option Int :=
  match s.data with
  | '+' :: rest => (startDigits rest).map (fun n => (n : Int))
  | '-' :: rest => (startDigits rest).map (fun n => -(n : Int))
  | l => (startDigits l).map (fun n => (n : Int))

/-- Embedded from the POST branch of `add_user` (src/app.py lines 93-126):
the five form fields are stripped, then checked in order — presence of all
five, first-name length, last-name length, age parse then age range, city
length — returning the first failing check's flash message, or the
normalized values. -/
def addValidate (f : FormData) : Except String NormForm :=
  let first_name := pyStrip f.first_name
  let last_name := pyStrip f.last_name
  let email := pyStrip f.email
  let age := pyStrip f.age
  let city := pyStrip f.city
  if first_name = "" ∨ last_name = "" ∨ email = "" ∨ age = "" ∨ city = "" then
    .error "All fields are required!"
  else if first_name.length < 2 ∨ first_name.length > 50 then
    .error "First name must be between 2 and 50 characters!"
  else if last_name.length < 2 ∨ last_name.length > 50 then
    .error "Last name must be between 2 and 50 characters!"
  else
    match parsePyInt age with
    | none => .error "Age must be a valid number!"
    | some a =>
      if a ≤ 0 ∨ a > 150 then
        .error "Please enter a valid age (1-150)!"
      else if city.length < 2 ∨ city.length > 50 then
        .error "City must be between 2 and 50 characters!"
      else
        .ok { first_name := first_name, last_name := last_name, email := email,
              age := a, city := city }

/-- Embedded from the POST branch of `update_user` (src/app.py lines
182-215), which repeats the stripping and checks of `add_user` verbatim. -/
def updateValidate (f : FormData) : Except String NormForm :=
  let first_name := pyStrip f.first_name
  let last_name := pyStrip f.last_name
  let email := pyStrip f.email
  let age := pyStrip f.age
  let city := pyStrip f.city
  if first_name = "" ∨ last_name = "" ∨ email = "" ∨ age = "" ∨ city = "" then
    .error "All fields are required!"
  else if first_name.length < 2 ∨ first_name.length > 50 then
    .error "First name must be between 2 and 50 characters!"
  else if last_name.length < 2 ∨ last_name.length > 50 then
    .error "Last name must be between 2 and 50 characters!"
  else
    match parsePyInt age with
    | none => .error "Age must be a valid number!"
    | some a =>
      if a ≤ 0 ∨ a > 150 then
        .error "Please enter a valid age (1-150)!"
      else if city.length < 2 ∨ city.length > 50 then
        .error "City must be between 2 and 50 characters!"
      else
        .ok { first_name := first_name, last_name := last_name, email := email,
              age := a, city := city }

/-- Embedded from `add_user` (src/app.py lines 91-157): validate, then
pre-check `User.query.filter_by(email=email).first()` (case-sensitive
equality under SQLite's default BINARY collation); on a hit fail with the
duplicate-email flash; otherwise insert a fresh row and commit. -/
def addUser (f : FormData) (s : AppState) : Outcome User × AppState :=
  match addValidate f with
  | .error e => (.failure e, s)
  | .ok n =>
    match s.users.find? (fun u => u.email == n.email) with
    | some _ => (.failure "Email already exists! Please use a different email.", s)
    | none =>
      let new_user : User :=
        { id := s.next_id, first_name := n.first_name, last_name := n.last_name,
          email := n.email, age := n.age, city := n.city, created_at := s.now }
      (.ok new_user, { users := s.users ++ [new_user], next_id := s.next_id + 1, now := s.now })

/-- Embedded from `view_user` (src/app.py lines 162-168):
`User.query.get_or_404(user_id)` — the row with that primary key, or 404. -/
def viewUser (user_id : Nat) (s : AppState) : Option User :=
  s.users.find? (fun u => u.id == user_id)

/-- The in-place field assignment block of `update_user` (src/app.py lines
225-229): the five editable columns are replaced, `id` and `created_at`
are not assigned. -/
def updatedUser (u : User) (n : NormForm) : User :=
  { u with first_name := n.first_name, last_name := n.last_name, email := n.email,
           age := n.age, city := n.city }

/-- Embedded from `update_user` (src/app.py lines 171-243): resolve the row
by primary key (404 if absent), validate, pre-check
`filter_by(email=email).first()` and fail when the hit is a different row
(`existing_user.id != user_id`); otherwise assign the five fields on the
resolved row and commit. -/
def updateUser (user_id : Nat) (f : FormData) (s : AppState) : Outcome User × AppState :=
  match s.users.find? (fun u => u.id == user_id) with
  | none => (.notFound, s)
  | some user =>
    match updateValidate f with
    | .error e => (.failure e, s)
    | .ok n =>
      let dup :=
        match s.users.find? (fun u => u.email == n.email) with
        | some existing_user => existing_user.id != user_id
        | none => false
      if dup then (.failure "Email already exists! Please use a different email.", s)
      else
        (.ok (updatedUser user n),
         { s with users := s.users.map (fun v => if v.id == user_id then updatedUser v n else v) })

/-- Embedded from `delete_user` (src/app.py lines 248-268): resolve the row
by primary key (404 if absent), delete it, commit, and flash a confirmation
naming the removed user. -/
def deleteUser (user_id : Nat) (s : AppState) : Outcome String × AppState :=
  match s.users.find? (fun u => u.id == user_id) with
  | none => (.notFound, s)
  | some user =>
    (.ok ("User " ++ user.first_name ++ " " ++ user.last_name ++ " deleted successfully!"),
     { s with users := s.users.filter (fun v => v.id != user_id) })

/-- Case-insensitive character comparison of SQL `LIKE` under SQLite:
ASCII case folding. -/
def charEqCI (p c : Char) : Bool := p.toLower == c.toLower

/-- Does `f` accept some suffix of the list? Used for the `%` wildcard. -/
def anySuffix (f : List Char → Bool) : List Char → Bool
  | [] => f []
  | c :: s' => f (c :: s') || anySuffix f s'

/-- SQL `LIKE` matching of a whole string against a pattern: `%` matches
any sequence, `_` matches any single character, any other pattern
character matches one character up to ASCII case. -/
def likeMatch : List Char → List Char → Bool
  | [], s => s.isEmpty
  | p :: ps, s =>
    if p = '%' then anySuffix (likeMatch ps) s
    else
      match s with
      | [] => false
      | c :: s' => (p == '_' || charEqCI p c) && likeMatch ps s'

/-- SQLAlchemy's `column.ilike(pattern)`: case-insensitive LIKE. -/
def ilike (pat s : String) : Bool := likeMatch pat.data s.data

/-- Embedded from `search_users` (src/app.py lines 270-292): the query
parameter is stripped; if non-empty, the rows matching
`first_name ILIKE pat OR last_name ILIKE pat OR city ILIKE pat` with
`pat = "%" + query + "%"` are returned, otherwise the empty list. -/
def searchUsers (query : String) (s : AppState) : List User :=
  let q := pyStrip query
  if q ≠ "" then
    let search_pattern := "%" ++ q ++ "%"
    s.users.filter (fun u =>
      ilike search_pattern u.first_name || ilike search_pattern u.last_name ||
        ilike search_pattern u.city)
  else []

/-- ASCII lowercasing of a character list. -/
def lowerL (l : List Char) : List Char := l.map Char.toLower

/-- Modelled from the spec: "contains the query as a case-insensitive
substring" — the lowercased query occurs contiguously inside the
lowercased field. -/
def containsCI (hay q : String) : Prop :=
  ∃ a b, lowerL hay.data = a ++ lowerL q.data ++ b

/-- Is the first list an initial segment of the second? -/
def beginsWith : List Char → List Char → Bool
  | [], _ => true
  | _ :: _, [] => false
  | a :: q, c :: s => a == c && beginsWith q s

/-- Does `q` occur contiguously in the list? -/
def infixCheck (q : List Char) : List Char → Bool
  | [] => q.isEmpty
  | c :: s => beginsWith q (c :: s) || infixCheck q s

/-- A LIKE pattern fragment with no wildcard characters. -/
def plainPat (l : List Char) : Prop := ∀ c ∈ l, c ≠ '%' ∧ c ≠ '_'

instance (l : List Char) : Decidable (plainPat l) := by
  unfold plainPat; infer_instance

/-- The presence check of the validators: some field is empty after
stripping (Python `not all([...])` on the stripped strings). -/
abbrev presenceBad (f : FormData) : Prop :=
  pyStrip f.first_name = "" ∨ pyStrip f.last_name = "" ∨ pyStrip f.email = "" ∨
    pyStrip f.age = "" ∨ pyStrip f.city = ""

/-- The length check applied to first name, last name and city:
`len(x) < 2 or len(x) > 50`. -/
abbrev lenBad (s : String) : Prop := s.length < 2 ∨ s.length > 50

/-- Primary-key uniqueness, enforced by the store on column `id`. -/
def uniqueIds (s : AppState) : Prop := s.users.Pairwise (fun a b => a.id ≠ b.id)

/-- The `unique=True` constraint the store enforces on column `email`. -/
def uniqueEmails (s : AppState) : Prop := s.users.Pairwise (fun a b => a.email ≠ b.email)

instance (s : AppState) : Decidable (uniqueIds s) := by
  unfold uniqueIds; infer_instance

instance (s : AppState) : Decidable (uniqueEmails s) := by
  unfold uniqueEmails; infer_instance

deriving instance DecidableEq for Except

/-! Concrete data used by witnesses and counterexamples. -/

/-- A valid submission. -/
def fJohn : FormData :=
  { first_name := "John", last_name := "Doe", email := "john@x.com", age := "30", city := "NYC" }

/-- A valid submission with a different email. -/
def fJane : FormData :=
  { first_name := "Jane", last_name := "Smith", email := "jane@x.com", age := "25", city := "LA" }

/-- A valid submission reusing John's email. -/
def fJohnSelf : FormData :=
  { first_name := "Johnny", last_name := "Doe", email := "john@x.com", age := "31", city := "NYC" }

/-- A submission failing the presence check while carrying John's email. -/
def fDupBad : FormData :=
  { first_name := "", last_name := "Doe", email := "john@x.com", age := "30", city := "NYC" }

/-- A submission failing the presence check while carrying Jane's email. -/
def fUpdBad : FormData :=
  { first_name := "", last_name := "Doe", email := "jane@x.com", age := "30", city := "NYC" }

/-- A valid submission except for the age field, which is the argument. -/
def fAge (a : String) : FormData :=
  { first_name := "John", last_name := "Doe", email := "john@x.com", age := a, city := "NYC" }

/-- A stored row for John. -/
def uJohn : User :=
  { id := 1, first_name := "John", last_name := "Doe", email := "john@x.com", age := 30,
    city := "NYC", created_at := 5 }

/-- A stored row for Jane. -/
def uJane : User :=
  { id := 2, first_name := "Jane", last_name := "Smith", email := "jane@x.com", age := 25,
    city := "LA", created_at := 6 }

/-- The empty store. -/
def sEmpty : AppState := { users := [], next_id := 1, now := 5 }

/-- A store holding John only. -/
def sOne : AppState := { users := [uJohn], next_id := 2, now := 6 }

/-- A store holding John and Jane. -/
def sTwo : AppState := { users := [uJohn, uJane], next_id := 3, now := 7 }

/-- A row whose first name matches the LIKE pattern `%a_b%` without
containing the literal substring `a_b`. -/
def uAxb : User :=
  { id := 1, first_name := "Axb", last_name := "Zz", email := "a@x.com", age := 5,
    city := "Qq", created_at := 0 }

/-- A store holding only `uAxb`. -/
def sAxb : AppState := { users := [uAxb], next_id := 2, now := 1 }

/-- An email of 121 characters. -/
def longEmail : String := ⟨List.replicate 121 'a'⟩

/-- A submission that passes every validation check and carries a
121-character email. -/
def fLong : FormData :=
  { first_name := "John", last_name := "Doe", email := longEmail, age := "30", city := "NYC" }

/-- The record created by submitting `fJohn` to the empty store. -/
def uNew : User :=
  { id := 1, first_name := "John", last_name := "Doe", email := "john@x.com", age := 30,
    city := "NYC", created_at := 5 }

/-- The store after submitting `fJohn` to the empty store. -/
def sNew : AppState := { users := [uNew], next_id := 2, now := 5 }

/-- John's row after a successful update with `fJane`: the five editable
fields replaced, id and creation timestamp kept. -/
def uJaneUpd : User :=
  { id := 1, first_name := "Jane", last_name := "Smith", email := "jane@x.com", age := 25,
    city := "LA", created_at := 5 }

/-- The store `sOne` after updating record 1 with `fJane`. -/
def sJaneUpd : AppState := { users := [uJaneUpd], next_id := 2, now := 6 }

/-! Helper lemmas shared by the claim theorems. -/

/-- When validation passes, the accepted values are exactly the stripped
strings and the parsed age. -/
theorem addValidate_ok_fields {f : FormData} {n : NormForm} (h : addValidate f = .ok n) :
    n.first_name = pyStrip f.first_name ∧ n.last_name = pyStrip f.last_name ∧
    n.email = pyStrip f.email ∧ parsePyInt (pyStrip f.age) = some n.age ∧
    n.city = pyStrip f.city := by
  simp only [addValidate] at h
  split at h
  · exact absurd h (by simp)
  split at h
  · exact absurd h (by simp)
  split at h
  · exact absurd h (by simp)
  split at h
  · exact absurd h (by simp)
  next a heq =>
    split at h
    · exact absurd h (by simp)
    split at h
    · exact absurd h (by simp)
    injection h with h
    subst h
    exact ⟨rfl, rfl, rfl, heq, rfl⟩

/-- The two handlers validate with the same code (src/app.py lines 93-126
and 182-215 are textually identical). -/
theorem updateValidate_eq_add : updateValidate = addValidate := rfl

/-- When validation passes, the email field was non-empty after
stripping (the presence check passed). -/
theorem addValidate_ok_email_ne {f : FormData} {n : NormForm} (h : addValidate f = .ok n) :
    pyStrip f.email ≠ "" := by
  simp only [addValidate] at h
  split at h
  · exact absurd h (by simp)
  next hpres =>
    push_neg at hpres
    exact hpres.2.2.1

/-- No validation-failure flash equals the duplicate-email flash. -/
theorem addValidate_error_ne_dup {f : FormData} {e : String} (h : addValidate f = .error e) :
    e ≠ "Email already exists! Please use a different email." := by
  simp only [addValidate] at h
  split at h
  · injection h with h; subst h; decide
  split at h
  · injection h with h; subst h; decide
  split at h
  · injection h with h; subst h; decide
  split at h
  · injection h with h; subst h; decide
  split at h
  · injection h with h; subst h; decide
  split at h
  · injection h with h; subst h; decide
  exact absurd h (by simp)

/-- A non-empty string has length at least one. -/
theorem one_le_length_of_ne_empty {s : String} (h : s ≠ "") : 1 ≤ s.length := by
  cases s with
  | mk l =>
    cases l with
    | nil => exact absurd rfl h
    | cons c cs => simp [String.length]

/-- C1: for every field set passing all validation checks whose email
belongs to no existing record, Create succeeds, Read of the new identifier
returns the new record, its five fields are the normalized input (strings
stripped, age the parsed integer), and its identifier and creation
timestamp are newly assigned by the system. -/
theorem create_then_read (f : FormData) (s : AppState) (n : NormForm)
    (hval : addValidate f = .ok n)
    (hnodup : ∀ u ∈ s.users, u.email ≠ pyStrip f.email)
    (hfresh : ∀ u ∈ s.users, u.id < s.next_id) :
    ∃ u s₂, addUser f s = (.ok u, s₂) ∧ viewUser s.next_id s₂ = some u ∧
      u.first_name = pyStrip f.first_name ∧ u.last_name = pyStrip f.last_name ∧
      u.email = pyStrip f.email ∧ parsePyInt (pyStrip f.age) = some u.age ∧
      u.city = pyStrip f.city ∧
      u.id = s.next_id ∧ (∀ v ∈ s.users, v.id ≠ u.id) ∧ u.created_at = s.now := by
  obtain ⟨h1, h2, h3, h4, h5⟩ := addValidate_ok_fields hval
  have hfind : s.users.find? (fun u => u.email == n.email) = none := by
    rw [List.find?_eq_none]
    intro x hx
    simp only [beq_iff_eq, h3]
    exact hnodup x hx
  refine ⟨{ id := s.next_id, first_name := n.first_name, last_name := n.last_name,
            email := n.email, age := n.age, city := n.city, created_at := s.now },
          { users := s.users ++
              [{ id := s.next_id, first_name := n.first_name, last_name := n.last_name,
                 email := n.email, age := n.age, city := n.city, created_at := s.now }],
            next_id := s.next_id + 1, now := s.now },
          ?_, ?_, h1, h2, h3, by simpa using h4, h5, rfl, ?_, rfl⟩
  · simp only [addUser, hval, hfind]
  · simp only [viewUser, List.find?_append]
    have hnone : s.users.find? (fun u => u.id == s.next_id) = none := by
      rw [List.find?_eq_none]
      intro x hx
      simpa using Nat.ne_of_lt (hfresh x hx)
    rw [hnone]
    simp
  · intro v hv
    simpa using Nat.ne_of_lt (hfresh v hv)

/-- Witness for `create_then_read` at a concrete input. -/
theorem create_then_read_witness :
    ∃ u s₂, addUser fJohn sEmpty = (.ok u, s₂) ∧ viewUser sEmpty.next_id s₂ = some u ∧
      u.first_name = pyStrip fJohn.first_name ∧ u.last_name = pyStrip fJohn.last_name ∧
      u.email = pyStrip fJohn.email ∧ parsePyInt (pyStrip fJohn.age) = some u.age ∧
      u.city = pyStrip fJohn.city ∧
      u.id = sEmpty.next_id ∧ (∀ v ∈ sEmpty.users, v.id ≠ u.id) ∧ u.created_at = sEmpty.now :=
  create_then_read fJohn sEmpty
    { first_name := "John", last_name := "Doe", email := "john@x.com", age := 30, city := "NYC" }
    (by decide) (by decide) (by decide)

/-- C2 counterexample: a submission that fails the presence check while
carrying an existing record's email is rejected with the required-fields
flash, not the duplicate-email flash, so the claim as stated is false. -/
theorem create_duplicate_email_claim_false :
    uJohn ∈ sOne.users ∧ pyStrip fDupBad.email = uJohn.email ∧
    addUser fDupBad sOne = (.failure "All fields are required!", sOne) ∧
    "All fields are required!" ≠ "Email already exists! Please use a different email." := by
  decide

/-- C2 (amended): when the store contains a record with the submission's
stripped email, Create fails and performs no store mutation; if the
submission passes all validation checks, the failure is the
duplicate-email error. -/
theorem create_duplicate_email_fails (f : FormData) (s : AppState) (r : User)
    (hmem : r ∈ s.users) (hemail : pyStrip f.email = r.email) :
    (∃ msg, addUser f s = (.failure msg, s)) ∧
    (∀ n, addValidate f = .ok n →
      addUser f s = (.failure "Email already exists! Please use a different email.", s)) := by
  have key : ∀ n, addValidate f = .ok n →
      addUser f s = (.failure "Email already exists! Please use a different email.", s) := by
    intro n hval
    obtain ⟨-, -, h3, -, -⟩ := addValidate_ok_fields hval
    have hsome : (s.users.find? (fun u => u.email == n.email)).isSome := by
      rw [List.find?_isSome]
      exact ⟨r, hmem, by simp [h3, hemail]⟩
    obtain ⟨w, hw⟩ := Option.isSome_iff_exists.mp hsome
    simp only [addUser, hval, hw]
  refine ⟨?_, key⟩
  cases hval : addValidate f with
  | error e => exact ⟨e, by simp only [addUser, hval]⟩
  | ok n => exact ⟨_, key n hval⟩

/-- Witness for `create_duplicate_email_fails` at a concrete input. -/
theorem create_duplicate_email_fails_witness :
    (∃ msg, addUser fJohnSelf sOne = (.failure msg, sOne)) ∧
    (∀ n, addValidate fJohnSelf = .ok n →
      addUser fJohnSelf sOne = (.failure "Email already exists! Please use a different email.", sOne)) :=
  create_duplicate_email_fails fJohnSelf sOne uJohn (by decide) (by decide)

/-- C4: both handlers validate identically, and the flash message is that
of the first failing check in the fixed order presence, first-name length,
last-name length, age parse, age range, city length. -/
theorem validation_order (f : FormData) :
    updateValidate f = addValidate f ∧
    (presenceBad f → addValidate f = .error "All fields are required!") ∧
    (¬ presenceBad f → lenBad (pyStrip f.first_name) →
      addValidate f = .error "First name must be between 2 and 50 characters!") ∧
    (¬ presenceBad f → ¬ lenBad (pyStrip f.first_name) → lenBad (pyStrip f.last_name) →
      addValidate f = .error "Last name must be between 2 and 50 characters!") ∧
    (¬ presenceBad f → ¬ lenBad (pyStrip f.first_name) → ¬ lenBad (pyStrip f.last_name) →
      parsePyInt (pyStrip f.age) = none → addValidate f = .error "Age must be a valid number!") ∧
    (∀ a : Int, ¬ presenceBad f → ¬ lenBad (pyStrip f.first_name) →
      ¬ lenBad (pyStrip f.last_name) → parsePyInt (pyStrip f.age) = some a → a ≤ 0 ∨ a > 150 →
      addValidate f = .error "Please enter a valid age (1-150)!") ∧
    (∀ a : Int, ¬ presenceBad f → ¬ lenBad (pyStrip f.first_name) →
      ¬ lenBad (pyStrip f.last_name) → parsePyInt (pyStrip f.age) = some a →
      ¬ (a ≤ 0 ∨ a > 150) → lenBad (pyStrip f.city) →
      addValidate f = .error "City must be between 2 and 50 characters!") := by
  refine ⟨rfl, ?_, ?_, ?_, ?_, ?_, ?_⟩
  · intro hp
    simp only [addValidate, if_pos hp]
  · intro hp h1
    simp only [addValidate]
    rw [if_neg hp, if_pos h1]
  · intro hp h1 h2
    simp only [addValidate]
    rw [if_neg hp, if_neg h1, if_pos h2]
  · intro hp h1 h2 hparse
    simp only [addValidate, hparse]
    rw [if_neg hp, if_neg h1, if_neg h2]
  · intro a hp h1 h2 hparse hrange
    simp only [addValidate, hparse]
    rw [if_neg hp, if_neg h1, if_neg h2, if_pos hrange]
  · intro a hp h1 h2 hparse hrange hcity
    simp only [addValidate, hparse]
    rw [if_neg hp, if_neg h1, if_neg h2, if_neg hrange, if_pos hcity]

/-- Witness for `validation_order` at concrete inputs. -/
theorem validation_order_witness :
    updateValidate fDupBad = addValidate fDupBad ∧
    addValidate fDupBad = .error "All fields are required!" :=
  ⟨(validation_order fDupBad).1, (validation_order fDupBad).2.1 (by decide)⟩

/-- C5 counterexample: the empty age string does not parse as an integer,
yet validation rejects it with the required-fields flash (the presence
check fires first), not the invalid-age-format flash, so the claim as
stated is false. -/
theorem age_format_claim_false :
    parsePyInt (pyStrip (fAge "").age) = none ∧
    addValidate (fAge "") = .error "All fields are required!" ∧
    "All fields are required!" ≠ "Age must be a valid number!" := by
  decide

/-- C5 (amended): for a submission passing the presence and name checks
(in particular the age string is non-empty after stripping): an age string
that does not parse is rejected with the invalid-age-format flash, a
parsed age outside [1, 150] is rejected with the age-range flash, and the
boundary values are accepted with the parsed age. -/
theorem age_validation (f : FormData)
    (hp : ¬ presenceBad f) (h1 : ¬ lenBad (pyStrip f.first_name))
    (h2 : ¬ lenBad (pyStrip f.last_name)) :
    (parsePyInt (pyStrip f.age) = none → addValidate f = .error "Age must be a valid number!") ∧
    (∀ a : Int, parsePyInt (pyStrip f.age) = some a → a ≤ 0 ∨ a > 150 →
      addValidate f = .error "Please enter a valid age (1-150)!") ∧
    (∀ a : Int, parsePyInt (pyStrip f.age) = some a → 1 ≤ a → a ≤ 150 →
      ¬ lenBad (pyStrip f.city) → ∃ n, addValidate f = .ok n ∧ n.age = a) := by
  refine ⟨?_, ?_, ?_⟩
  · intro hparse
    simp only [addValidate, hparse]
    rw [if_neg hp, if_neg h1, if_neg h2]
  · intro a hparse hrange
    simp only [addValidate, hparse]
    rw [if_neg hp, if_neg h1, if_neg h2, if_pos hrange]
  · intro a hparse hlo hhi hcity
    have hrange : ¬ (a ≤ 0 ∨ a > 150) := by omega
    refine ⟨{ first_name := pyStrip f.first_name, last_name := pyStrip f.last_name,
              email := pyStrip f.email, age := a, city := pyStrip f.city }, ?_, rfl⟩
    simp only [addValidate, hparse]
    rw [if_neg hp, if_neg h1, if_neg h2, if_neg hrange, if_neg hcity]

/-- Witness for `age_validation` at the concrete age strings of the claim. -/
theorem age_validation_witness :
    addValidate (fAge "abc") = .error "Age must be a valid number!" ∧
    addValidate (fAge "0") = .error "Please enter a valid age (1-150)!" ∧
    addValidate (fAge "151") = .error "Please enter a valid age (1-150)!" ∧
    addValidate (fAge "-5") = .error "Please enter a valid age (1-150)!" ∧
    (∃ n, addValidate (fAge "1") = .ok n ∧ n.age = 1) ∧
    (∃ n, addValidate (fAge "150") = .ok n ∧ n.age = 150) :=
  ⟨(age_validation (fAge "abc") (by decide) (by decide) (by decide)).1 (by decide),
   (age_validation (fAge "0") (by decide) (by decide) (by decide)).2.1 0 (by decide)
     (by decide),
   (age_validation (fAge "151") (by decide) (by decide) (by decide)).2.1 151 (by decide)
     (by decide),
   (age_validation (fAge "-5") (by decide) (by decide) (by decide)).2.1 (-5) (by decide)
     (by decide),
   (age_validation (fAge "1") (by decide) (by decide) (by decide)).2.2 1 (by decide)
     (by decide) (by decide) (by decide),
   (age_validation (fAge "150") (by decide) (by decide) (by decide)).2.2 150 (by decide)
     (by decide) (by decide) (by decide)⟩

/-- Under the store's email-uniqueness invariant, two stored rows with the
same email are the same row. -/
theorem eq_of_mem_of_email_eq {s : AppState} (h : uniqueEmails s) {a b : User}
    (ha : a ∈ s.users) (hb : b ∈ s.users) (he : a.email = b.email) : a = b := by
  by_contra hne
  have hsymm : Symmetric (fun a b : User => a.email ≠ b.email) := fun _ _ hxy h' => hxy h'.symm
  exact List.Pairwise.forall hsymm h ha hb hne he

/-- Under the store's primary-key invariant, two stored rows with the same
id are the same row. -/
theorem eq_of_mem_of_id_eq {s : AppState} (h : uniqueIds s) {a b : User}
    (ha : a ∈ s.users) (hb : b ∈ s.users) (he : a.id = b.id) : a = b := by
  by_contra hne
  have hsymm : Symmetric (fun a b : User => a.id ≠ b.id) := fun _ _ hxy h' => hxy h'.symm
  exact List.Pairwise.forall hsymm h ha hb hne he

/-- C6: sending a record's own email back to Update never triggers the
duplicate-email error; if the submission also passes validation, the
update succeeds. -/
theorem update_own_email_ok (s : AppState) (user_id : Nat) (u : User) (f : FormData)
    (hemails : uniqueEmails s)
    (hmem : u ∈ s.users) (hid : u.id = user_id)
    (hemail : pyStrip f.email = u.email) :
    (updateUser user_id f s).1 ≠ .failure "Email already exists! Please use a different email." ∧
    (∀ n, updateValidate f = .ok n → ∃ u₂ s₂, updateUser user_id f s = (.ok u₂, s₂)) := by
  have hsome : (s.users.find? (fun x => x.id == user_id)).isSome := by
    rw [List.find?_isSome]
    exact ⟨u, hmem, by simp [hid]⟩
  obtain ⟨v, hv⟩ := Option.isSome_iff_exists.mp hsome
  have hok : ∀ n, updateValidate f = .ok n → ∃ u₂ s₂, updateUser user_id f s = (.ok u₂, s₂) := by
    intro n hval
    have hval' : addValidate f = .ok n := by rw [← updateValidate_eq_add]; exact hval
    obtain ⟨-, -, h3, -, -⟩ := addValidate_ok_fields hval'
    refine ⟨updatedUser v n,
      { s with users := s.users.map (fun x => if x.id == user_id then updatedUser x n else x) },
      ?_⟩
    simp only [updateUser, hv, hval]
    cases hfind : s.users.find? (fun x => x.email == n.email) with
    | none => simp [hfind]
    | some w =>
      have hw_mem := List.mem_of_find?_eq_some hfind
      have hw_email : w.email = n.email := by simpa using List.find?_some hfind
      have hw_eq : w = u :=
        eq_of_mem_of_email_eq hemails hw_mem hmem (hw_email.trans (h3.trans hemail))
      simp [hfind, hw_eq, hid]
  refine ⟨?_, hok⟩
  cases hval : updateValidate f with
  | error e =>
    have hres : updateUser user_id f s = (.failure e, s) := by
      simp only [updateUser, hv, hval]
    rw [hres]
    intro hcontra
    injection hcontra with hmsg
    have hval' : addValidate f = .error e := by rw [← updateValidate_eq_add]; exact hval
    exact addValidate_error_ne_dup hval' hmsg
  | ok n =>
    obtain ⟨u₂, s₂, hres⟩ := hok n hval
    rw [hres]
    simp

/-- Witness for `update_own_email_ok` at a concrete input. -/
theorem update_own_email_ok_witness :
    (updateUser 1 fJohnSelf sOne).1 ≠
      .failure "Email already exists! Please use a different email." ∧
    (∀ n, updateValidate fJohnSelf = .ok n →
      ∃ u₂ s₂, updateUser 1 fJohnSelf sOne = (.ok u₂, s₂)) :=
  update_own_email_ok sOne 1 uJohn fJohnSelf (by decide) (by decide) (by decide) (by decide)

/-- C7 counterexample: an update carrying another record's email but
failing the presence check is rejected with the required-fields flash, not
the duplicate-email flash, so the claim as stated is false. -/
theorem update_duplicate_email_claim_false :
    uJohn ∈ sTwo.users ∧ uJane ∈ sTwo.users ∧ uJohn.id ≠ uJane.id ∧
    pyStrip fUpdBad.email = uJane.email ∧
    updateUser uJohn.id fUpdBad sTwo = (.failure "All fields are required!", sTwo) ∧
    "All fields are required!" ≠ "Email already exists! Please use a different email." := by
  decide

/-- C7 (amended): when the store satisfies its email-uniqueness invariant
and holds distinct records r1 (with the targeted identifier) and r2, an
Update of r1 carrying r2's email fails and leaves the whole store — in
particular r1 — unchanged; if the submission passes validation, the
failure is the duplicate-email error. -/
theorem update_other_email_fails (s : AppState) (user_id : Nat) (r1 r2 : User) (f : FormData)
    (hemails : uniqueEmails s)
    (h1 : r1 ∈ s.users) (hid1 : r1.id = user_id)
    (h2 : r2 ∈ s.users) (hne : r2.id ≠ user_id)
    (hemail : pyStrip f.email = r2.email) :
    (∃ msg, updateUser user_id f s = (.failure msg, s)) ∧
    (∀ n, updateValidate f = .ok n →
      updateUser user_id f s = (.failure "Email already exists! Please use a different email.", s)) := by
  have hsome : (s.users.find? (fun x => x.id == user_id)).isSome := by
    rw [List.find?_isSome]
    exact ⟨r1, h1, by simp [hid1]⟩
  obtain ⟨v, hv⟩ := Option.isSome_iff_exists.mp hsome
  have key : ∀ n, updateValidate f = .ok n →
      updateUser user_id f s =
        (.failure "Email already exists! Please use a different email.", s) := by
    intro n hval
    have hval' : addValidate f = .ok n := by rw [← updateValidate_eq_add]; exact hval
    obtain ⟨-, -, h3, -, -⟩ := addValidate_ok_fields hval'
    have hesome : (s.users.find? (fun x => x.email == n.email)).isSome := by
      rw [List.find?_isSome]
      exact ⟨r2, h2, by simp [h3, hemail]⟩
    obtain ⟨w, hw⟩ := Option.isSome_iff_exists.mp hesome
    have hw_mem := List.mem_of_find?_eq_some hw
    have hw_email : w.email = n.email := by simpa using List.find?_some hw
    have hw_eq : w = r2 :=
      eq_of_mem_of_email_eq hemails hw_mem h2 (hw_email.trans (h3.trans hemail))
    simp only [updateUser, hv, hval, hw]
    simp [hw_eq, hne]
  refine ⟨?_, key⟩
  cases hval : updateValidate f with
  | error e => exact ⟨e, by simp only [updateUser, hv, hval]⟩
  | ok n => exact ⟨_, key n hval⟩

/-- Witness for `update_other_email_fails` at a concrete input. -/
theorem update_other_email_fails_witness :
    (∃ msg, updateUser 1 fJane sTwo = (.failure msg, sTwo)) ∧
    (∀ n, updateValidate fJane = .ok n →
      updateUser 1 fJane sTwo =
        (.failure "Email already exists! Please use a different email.", sTwo)) :=
  update_other_email_fails sTwo 1 uJohn uJane fJane (by decide) (by decide) (by decide)
    (by decide) (by decide) (by decide)

/-- Inversion of a successful Create: validation passed, the email
pre-check found nothing, and the new row and store are as inserted. -/
theorem addUser_ok_inv {f : FormData} {s : AppState} {u : User} {s₂ : AppState}
    (hsucc : addUser f s = (.ok u, s₂)) :
    ∃ n, addValidate f = .ok n ∧
      s.users.find? (fun x => x.email == n.email) = none ∧
      u = { id := s.next_id, first_name := n.first_name, last_name := n.last_name,
            email := n.email, age := n.age, city := n.city, created_at := s.now } ∧
      s₂ = { users := s.users ++ [u], next_id := s.next_id + 1, now := s.now } := by
  cases hval : addValidate f with
  | error e => simp [addUser, hval] at hsucc
  | ok n =>
    cases hfind : s.users.find? (fun x => x.email == n.email) with
    | some w => simp [addUser, hval, hfind] at hsucc
    | none =>
      simp only [addUser, hval, hfind] at hsucc
      have h1 := congrArg Prod.fst hsucc
      have h2 := congrArg Prod.snd hsucc
      simp only at h1 h2
      injection h1 with h1
      exact ⟨n, rfl, hfind, h1.symm, by rw [← h2, h1]⟩

/-- Inversion of a successful Update: the row was resolved, validation
passed, the duplicate pre-check did not fire, and the result and store are
as assigned. -/
theorem updateUser_ok_inv {s : AppState} {user_id : Nat} {f : FormData} {u₂ : User}
    {s₂ : AppState} (hsucc : updateUser user_id f s = (.ok u₂, s₂)) :
    ∃ user n, s.users.find? (fun x => x.id == user_id) = some user ∧
      updateValidate f = .ok n ∧ u₂ = updatedUser user n ∧
      s₂ = { s with
             users := s.users.map (fun v => if v.id == user_id then updatedUser v n else v) } := by
  cases hfind : s.users.find? (fun x => x.id == user_id) with
  | none => simp [updateUser, hfind] at hsucc
  | some user =>
    cases hval : updateValidate f with
    | error e => simp [updateUser, hfind, hval] at hsucc
    | ok n =>
      simp only [updateUser, hfind, hval] at hsucc
      split at hsucc
      · exact absurd hsucc (by simp)
      · have h1 := congrArg Prod.fst hsucc
        have h2 := congrArg Prod.snd hsucc
        simp only at h1 h2
        injection h1 with h1
        exact ⟨user, n, rfl, rfl, h1.symm, h2.symm⟩

/-- C8: a successful Update replaces exactly the five editable fields of
the targeted record, keeps its identifier and creation timestamp, and
leaves every other record and the rest of the state unchanged. -/
theorem update_frame (s : AppState) (user_id : Nat) (f : FormData) (u₂ : User) (s₂ : AppState)
    (hids : uniqueIds s) (hsucc : updateUser user_id f s = (.ok u₂, s₂)) :
    ∃ u n, u ∈ s.users ∧ u.id = user_id ∧ updateValidate f = .ok n ∧
      u₂ = updatedUser u n ∧ u₂.id = u.id ∧ u₂.created_at = u.created_at ∧
      u₂.first_name = n.first_name ∧ u₂.last_name = n.last_name ∧ u₂.email = n.email ∧
      u₂.age = n.age ∧ u₂.city = n.city ∧
      s₂.users = s.users.map (fun v => if v.id = user_id then u₂ else v) ∧
      (∀ v ∈ s.users, v.id ≠ user_id → v ∈ s₂.users) ∧
      s₂.next_id = s.next_id ∧ s₂.now = s.now := by
  obtain ⟨user, n, hfind, hval, hu₂, hs₂⟩ := updateUser_ok_inv hsucc
  have hu_mem : user ∈ s.users := List.mem_of_find?_eq_some hfind
  have hu_id : user.id = user_id := by simpa using List.find?_some hfind
  subst hu₂ hs₂
  have hmap : s.users.map (fun v => if v.id == user_id then updatedUser v n else v) =
      s.users.map (fun v => if v.id = user_id then updatedUser user n else v) := by
    apply List.map_congr_left
    intro a ha
    by_cases hc : a.id = user_id
    · have : a = user := eq_of_mem_of_id_eq hids ha hu_mem (hc.trans hu_id.symm)
      subst this
      simp [hc]
    · simp [hc]
  refine ⟨user, n, hu_mem, hu_id, hval, rfl, rfl, rfl, rfl, rfl, rfl, rfl, rfl, hmap, ?_,
          rfl, rfl⟩
  intro v hv hne
  simp only [List.mem_map]
  exact ⟨v, hv, by simp [hne]⟩

/-- Witness for `update_frame` at a concrete input. -/
theorem update_frame_witness :
    ∃ u n, u ∈ sOne.users ∧ u.id = 1 ∧ updateValidate fJane = .ok n ∧
      uJaneUpd = updatedUser u n ∧ uJaneUpd.id = u.id ∧ uJaneUpd.created_at = u.created_at ∧
      uJaneUpd.first_name = n.first_name ∧ uJaneUpd.last_name = n.last_name ∧
      uJaneUpd.email = n.email ∧ uJaneUpd.age = n.age ∧ uJaneUpd.city = n.city ∧
      sJaneUpd.users = sOne.users.map (fun v => if v.id = 1 then uJaneUpd else v) ∧
      (∀ v ∈ sOne.users, v.id ≠ 1 → v ∈ sJaneUpd.users) ∧
      sJaneUpd.next_id = sOne.next_id ∧ sJaneUpd.now = sOne.now :=
  update_frame sOne 1 fJane uJaneUpd sJaneUpd (by decide) (by decide)

/-- C9 counterexample: a 121-character email passes every validation check
and is persisted, so the claimed 120-character upper bound is false on the
code (no length check exists and the SQLite store does not enforce the
declared column size). -/
theorem email_length_claim_false :
    ∃ u : User, (addUser fLong sEmpty).1 = .ok u ∧
      u ∈ (addUser fLong sEmpty).2.users ∧ u.email.length > 120 := by
  refine ⟨{ id := 1, first_name := "John", last_name := "Doe", email := longEmail,
            age := 30, city := "NYC", created_at := 5 }, by decide, by decide, by decide⟩

/-- C9 (amended): every record accepted by Create or Update has a
non-empty email (length at least 1, from the presence check); no upper
bound on email length is enforced. -/
theorem email_nonempty (f : FormData) :
    (∀ (s : AppState) (u : User) (s₂ : AppState), addUser f s = (.ok u, s₂) →
      1 ≤ u.email.length) ∧
    (∀ (s : AppState) (user_id : Nat) (u₂ : User) (s₂ : AppState),
      updateUser user_id f s = (.ok u₂, s₂) → 1 ≤ u₂.email.length) := by
  constructor
  · intro s u s₂ hsucc
    obtain ⟨n, hval, -, hu, -⟩ := addUser_ok_inv hsucc
    obtain ⟨-, -, h3, -, -⟩ := addValidate_ok_fields hval
    have : u.email = pyStrip f.email := by rw [hu]; exact h3
    rw [this]
    exact one_le_length_of_ne_empty (addValidate_ok_email_ne hval)
  · intro s user_id u₂ s₂ hsucc
    obtain ⟨user, n, -, hval, hu₂, -⟩ := updateUser_ok_inv hsucc
    have hval' : addValidate f = .ok n := by rw [← updateValidate_eq_add]; exact hval
    obtain ⟨-, -, h3, -, -⟩ := addValidate_ok_fields hval'
    have : u₂.email = pyStrip f.email := by rw [hu₂]; exact h3
    rw [this]
    exact one_le_length_of_ne_empty (addValidate_ok_email_ne hval')

/-- Witness for `email_nonempty` at a concrete input. -/
theorem email_nonempty_witness :
    addUser fJohn sEmpty = (.ok uNew, sNew) ∧ 1 ≤ uNew.email.length :=
  ⟨by decide, (email_nonempty fJohn).1 sEmpty uNew sNew (by decide)⟩

/-- C10: deleting an existing record removes exactly that record and a
subsequent Read of its identifier yields not-found; deleting an absent
identifier yields not-found and leaves the store untouched. -/
theorem delete_then_read (s : AppState) (user_id : Nat) :
    ((∃ u ∈ s.users, u.id = user_id) →
      ∃ msg s₂, deleteUser user_id s = (.ok msg, s₂) ∧ viewUser user_id s₂ = none ∧
        ∀ v, v ∈ s₂.users ↔ v ∈ s.users ∧ v.id ≠ user_id) ∧
    ((∀ u ∈ s.users, u.id ≠ user_id) →
      deleteUser user_id s = (.notFound, s) ∧ viewUser user_id s = none) := by
  constructor
  · rintro ⟨u, hmem, hid⟩
    have hsome : (s.users.find? (fun x => x.id == user_id)).isSome := by
      rw [List.find?_isSome]
      exact ⟨u, hmem, by simp [hid]⟩
    obtain ⟨v, hv⟩ := Option.isSome_iff_exists.mp hsome
    refine ⟨"User " ++ v.first_name ++ " " ++ v.last_name ++ " deleted successfully!",
            { users := s.users.filter (fun x => x.id != user_id), next_id := s.next_id,
              now := s.now },
            by simp only [deleteUser, hv], ?_, ?_⟩
    · simp only [viewUser]
      rw [List.find?_eq_none]
      intro x hx
      have hx' := List.mem_filter.mp hx
      simpa using (by simpa using hx'.2 : x.id ≠ user_id)
    · intro w
      simp [List.mem_filter]
  · intro habs
    have hnone : s.users.find? (fun x => x.id == user_id) = none := by
      rw [List.find?_eq_none]
      intro x hx
      simpa using habs x hx
    exact ⟨by simp only [deleteUser, hnone], by simp only [viewUser, hnone]⟩

/-- Witness for `delete_then_read` at concrete inputs. -/
theorem delete_then_read_witness :
    (∃ msg s₂, deleteUser 1 sOne = (.ok msg, s₂) ∧ viewUser 1 s₂ = none ∧
      ∀ v, v ∈ s₂.users ↔ v ∈ sOne.users ∧ v.id ≠ 1) ∧
    (deleteUser 99 sOne = (.notFound, sOne) ∧ viewUser 99 sOne = none) :=
  ⟨(delete_then_read sOne 1).1 ⟨uJohn, by decide, by decide⟩,
   (delete_then_read sOne 99).2 (by decide)⟩

/-- `beginsWith` holds exactly on initial segments. -/
theorem beginsWith_iff (q : List Char) : ∀ s, beginsWith q s = true ↔ ∃ t, s = q ++ t := by
  induction q with
  | nil =>
    intro s
    simp [beginsWith]
  | cons a q ih =>
    intro s
    cases s with
    | nil =>
      simp [beginsWith]
    | cons c s =>
      simp only [beginsWith, Bool.and_eq_true, beq_iff_eq, ih, List.cons_append,
        List.cons.injEq]
      constructor
      · rintro ⟨rfl, t, rfl⟩
        exact ⟨t, rfl, rfl⟩
      · rintro ⟨t, rfl, rfl⟩
        exact ⟨rfl, t, rfl⟩

/-- `infixCheck` holds exactly on contiguous occurrences. -/
theorem infixCheck_iff (q : List Char) : ∀ s, infixCheck q s = true ↔ ∃ a b, s = a ++ q ++ b := by
  intro s
  induction s with
  | nil =>
    simp only [infixCheck, List.isEmpty_iff]
    constructor
    · rintro rfl
      exact ⟨[], [], rfl⟩
    · rintro ⟨a, b, h⟩
      obtain ⟨h1, -⟩ := List.append_eq_nil.mp h.symm
      exact (List.append_eq_nil.mp h1).2
  | cons c s ih =>
    simp only [infixCheck, Bool.or_eq_true, beginsWith_iff, ih]
    constructor
    · rintro (⟨t, ht⟩ | ⟨a, b, rfl⟩)
      · exact ⟨[], t, by simpa using ht⟩
      · exact ⟨c :: a, b, by simp⟩
    · rintro ⟨a, b, h⟩
      cases a with
      | nil =>
        left
        exact ⟨b, by simpa using h⟩
      | cons c' a =>
        right
        rw [List.cons_append, List.cons_append] at h
        injection h with h1 h2
        exact ⟨a, b, by simpa using h2⟩

/-- A containment witness of the same length forces equality of the
lowercased strings. -/
theorem containsCI_eq_of_same_length {hay q : String}
    (hlen : (lowerL hay.data).length = (lowerL q.data).length)
    (h : containsCI hay q) : lowerL hay.data = lowerL q.data := by
  obtain ⟨a, b, hab⟩ := h
  have hl := congrArg List.length hab
  simp only [List.length_append] at hl
  have ha : a = [] := List.length_eq_zero.mp (by omega)
  have hb : b = [] := List.length_eq_zero.mp (by omega)
  subst ha hb
  simpa using hab

/-- A contained string is no longer than its container. -/
theorem length_le_of_containsCI {hay q : String} (h : containsCI hay q) :
    (lowerL q.data).length ≤ (lowerL hay.data).length := by
  obtain ⟨a, b, hab⟩ := h
  have hl := congrArg List.length hab
  simp only [List.length_append] at hl
  omega

/-- `anySuffix f` holds exactly when `f` accepts some suffix. -/
theorem anySuffix_iff (f : List Char → Bool) :
    ∀ s, anySuffix f s = true ↔ ∃ a b, s = a ++ b ∧ f b = true := by
  intro s
  induction s with
  | nil =>
    constructor
    · intro h
      exact ⟨[], [], rfl, h⟩
    · rintro ⟨a, b, hab, hb⟩
      obtain ⟨ha, hb'⟩ := List.append_eq_nil.mp hab.symm
      subst ha hb'
      simpa [anySuffix] using hb
  | cons c s ih =>
    rw [show anySuffix f (c :: s) = (f (c :: s) || anySuffix f s) from rfl, Bool.or_eq_true,
      ih]
    constructor
    · rintro (h | ⟨a, b, rfl, hb⟩)
      · exact ⟨[], c :: s, rfl, h⟩
      · exact ⟨c :: a, b, rfl, hb⟩
    · rintro ⟨a, b, hab, hb⟩
      cases a with
      | nil =>
        left
        simp only [List.nil_append] at hab
        rw [hab]
        exact hb
      | cons c' a =>
        right
        rw [List.cons_append] at hab
        injection hab with h1 h2
        exact ⟨a, b, h2, hb⟩

/-- A leading `%` matches by discarding any prefix of the string. -/
theorem likeMatch_percent (ps s : List Char) :
    likeMatch ('%' :: ps) s = anySuffix (likeMatch ps) s := rfl

/-- A wildcard-free pattern matches exactly the strings equal to it up to
ASCII case. -/
theorem likeMatch_plain (q : List Char) :
    ∀ s, plainPat q → (likeMatch q s = true ↔ lowerL q = lowerL s) := by
  induction q with
  | nil =>
    intro s _
    cases s with
    | nil => simp [likeMatch, lowerL]
    | cons c s => simp [likeMatch, lowerL]
  | cons p q ih =>
    intro s hq
    have hp : p ≠ '%' ∧ p ≠ '_' := hq p (List.mem_cons_self _ _)
    have hq' : plainPat q := fun c hc => hq c (List.mem_cons_of_mem _ hc)
    cases s with
    | nil =>
      rw [likeMatch, if_neg hp.1]
      simp [lowerL]
    | cons c s =>
      rw [likeMatch, if_neg hp.1]
      show ((p == '_' || charEqCI p c) && likeMatch q s) = true ↔ _
      have hpu : (p == '_') = false := by simp [hp.2]
      rw [hpu, Bool.false_or, Bool.and_eq_true, charEqCI, beq_iff_eq, ih s hq']
      simp [lowerL]

/-- A wildcard-free pattern followed by `%` matches exactly the strings
beginning, up to ASCII case, with that pattern. -/
theorem likeMatch_plain_percent (q : List Char) :
    ∀ s, plainPat q →
      (likeMatch (q ++ ['%']) s = true ↔ ∃ a b, s = a ++ b ∧ lowerL a = lowerL q) := by
  induction q with
  | nil =>
    intro s _
    rw [List.nil_append, likeMatch_percent, anySuffix_iff]
    constructor
    · rintro ⟨a, b, rfl, -⟩
      exact ⟨[], a ++ b, rfl, rfl⟩
    · rintro ⟨a, b, hab, ha⟩
      refine ⟨s, [], by simp, ?_⟩
      simp [likeMatch]
  | cons p q ih =>
    intro s hq
    have hp : p ≠ '%' ∧ p ≠ '_' := hq p (List.mem_cons_self _ _)
    have hq' : plainPat q := fun c hc => hq c (List.mem_cons_of_mem _ hc)
    cases s with
    | nil =>
      rw [List.cons_append, likeMatch, if_neg hp.1]
      constructor
      · intro h
        exact absurd h (by simp)
      · rintro ⟨a, b, hab, ha⟩
        obtain ⟨ha0, -⟩ := List.append_eq_nil.mp hab.symm
        subst ha0
        simp [lowerL] at ha
    | cons c s =>
      rw [List.cons_append, likeMatch, if_neg hp.1]
      show ((p == '_' || charEqCI p c) && likeMatch (q ++ ['%']) s) = true ↔ _
      have hpu : (p == '_') = false := by simp [hp.2]
      rw [hpu, Bool.false_or, Bool.and_eq_true, charEqCI, beq_iff_eq, ih s hq']
      constructor
      · rintro ⟨hpc, a, b, rfl, ha⟩
        refine ⟨c :: a, b, rfl, ?_⟩
        simp only [lowerL, List.map_cons] at ha ⊢
        rw [ha, hpc]
      · rintro ⟨a, b, hab, ha⟩
        cases a with
        | nil =>
          simp [lowerL] at ha
        | cons c' a =>
          rw [List.cons_append] at hab
          injection hab with h1 h2
          simp only [lowerL, List.map_cons, List.cons.injEq] at ha
          subst h1
          exact ⟨ha.1.symm, a, b, h2, ha.2⟩

/-- The pattern `%q%` with wildcard-free `q` matches exactly the strings
containing `q` up to ASCII case. -/
theorem likeMatch_substring (q : List Char) (hq : plainPat q) (s : List Char) :
    likeMatch ('%' :: (q ++ ['%'])) s = true ↔ ∃ a b, lowerL s = a ++ lowerL q ++ b := by
  rw [likeMatch_percent, anySuffix_iff]
  constructor
  · rintro ⟨a, b, rfl, hb⟩
    obtain ⟨c, d, rfl, hc⟩ := (likeMatch_plain_percent q b hq).mp hb
    refine ⟨lowerL a, lowerL d, ?_⟩
    simp only [lowerL, List.map_append] at hc ⊢
    rw [hc, List.append_assoc]
  · rintro ⟨x, y, hxy⟩
    refine ⟨s.take x.length, s.drop x.length, (List.take_append_drop _ _).symm, ?_⟩
    rw [likeMatch_plain_percent _ _ hq]
    have hdrop : lowerL (s.drop x.length) = lowerL q ++ y := by
      show (s.drop x.length).map Char.toLower = lowerL q ++ y
      rw [List.map_drop]
      show (lowerL s).drop x.length = lowerL q ++ y
      rw [hxy, List.append_assoc]
      exact List.drop_left x (lowerL q ++ y)
    refine ⟨(s.drop x.length).take (lowerL q).length,
            (s.drop x.length).drop (lowerL q).length, (List.take_append_drop _ _).symm, ?_⟩
    show ((s.drop x.length).take (lowerL q).length).map Char.toLower = lowerL q
    rw [List.map_take]
    show (lowerL (s.drop x.length)).take (lowerL q).length = lowerL q
    rw [hdrop]
    exact List.take_left (lowerL q) y

/-- C3 counterexample: the LIKE wildcard `_` of the query leaks into the
search pattern, so Search("a_b") returns a record none of whose three
fields contains "a_b" as a (case-insensitive) substring, refuting the
claim for wildcard-bearing queries. -/
theorem search_wildcard_claim_false :
    "a_b" ≠ "" ∧ uAxb ∈ searchUsers "a_b" sAxb ∧
    ¬ containsCI uAxb.first_name "a_b" ∧ ¬ containsCI uAxb.last_name "a_b" ∧
    ¬ containsCI uAxb.city "a_b" := by
  refine ⟨by decide, by decide, ?_, ?_, ?_⟩
  · intro h
    exact absurd (containsCI_eq_of_same_length (by decide) h) (by decide)
  · intro h
    exact absurd (length_le_of_containsCI h) (by decide)
  · intro h
    exact absurd (length_le_of_containsCI h) (by decide)

/-- C3 (amended): Search with a query that strips to empty returns the
empty result set; and for every query equal to its stripped form,
non-empty, and free of the LIKE wildcards `%` and `_`, Search returns
exactly the records one of whose first name, last name or city contains
the query as a case-insensitive substring. -/
theorem search_spec (query : String) (s : AppState) :
    (pyStrip query = "" → searchUsers query s = []) ∧
    (pyStrip query = query → query ≠ "" → plainPat query.data →
      ∀ u, u ∈ searchUsers query s ↔
        u ∈ s.users ∧
          (containsCI u.first_name query ∨ containsCI u.last_name query ∨
            containsCI u.city query)) := by
  constructor
  · intro h
    simp [searchUsers, h]
  · intro hstrip hne hplain u
    have hcond : pyStrip query ≠ "" := by rw [hstrip]; exact hne
    have hpat : ("%" ++ pyStrip query ++ "%").data = '%' :: (query.data ++ ['%']) := by
      rw [hstrip]
      simp [String.data_append]
    have key : ∀ fld : String,
        ilike ("%" ++ pyStrip query ++ "%") fld = true ↔ containsCI fld query := by
      intro fld
      simp only [ilike]
      rw [hpat]
      exact likeMatch_substring query.data hplain fld.data
    simp only [searchUsers]
    rw [if_pos hcond, List.mem_filter]
    simp only [Bool.or_eq_true, key]
    rw [or_assoc]

/-- Witness for `search_spec` at concrete inputs. -/
theorem search_spec_witness :
    searchUsers "  " sOne = [] ∧
    (uJohn ∈ searchUsers "oh" sOne ↔
      uJohn ∈ sOne.users ∧
        (containsCI uJohn.first_name "oh" ∨ containsCI uJohn.last_name "oh" ∨
          containsCI uJohn.city "oh")) :=
  ⟨(search_spec "  " sOne).1 (by decide),
   (search_spec "oh" sOne).2 (by decide) (by decide) (by decide) uJohn⟩

end FinalExam
